import Mathlib

/-!
Verification development for the periodic monitoring orchestrator
(`scheduler/main.py`).  The Python source is shallowly embedded: strings are
`List Char`, wall-clock times are absolute seconds (`Nat`), JSON documents are
an inductive `Json`, and `json.loads` is embedded as a fuel-indexed strict
recursive-descent parser over the same grammar Python's `json` module accepts
(whitespace, null/true/false, numbers with the leading-zero rule, NaN/Infinity,
strings with escapes, arrays, objects).  Modelling restrictions, each noted at
the definition it concerns: parsed floats are kept exact (integer part,
fraction digits, exponent) instead of IEEE values; lone UTF-16 surrogates in
string escapes are rejected (Lean `Char` cannot hold them); file contents that
went through `json.dump`/`json.load` are stored as parsed `Json` documents.
-/

set_option maxRecDepth 4000

namespace EdgeAgent

/-- Characters written via code points so that brace characters never appear
in the Lean source text. -/
def lbChar : Char := Char.ofNat 123

/-- Closing brace character. -/
def rbChar : Char := Char.ofNat 125

/-- Double-quote character. -/
def qChar : Char := Char.ofNat 34

/-- Backslash character. -/
def bsChar : Char := Char.ofNat 92

/-- Shorthand turning a Lean string literal into the `List Char` the embedding
works with. -/
def sl (s : String) : List Char := s.data

/-- JSON values as produced by `json.loads`.  Python floats are kept exact as
(integer part, fraction digits, exponent); `NaN` / `Infinity` (accepted by
Python's default parser) get their own constructors.  Object member lists keep
every parsed pair in order; dict semantics (later duplicate wins) lives in the
lookup function. -/
inductive Json where
  | null : Json
  | bool (b : Bool) : Json
  | num (n : Int) : Json
  | numF (ip : Int) (frac : List Nat) (ex : Int) : Json
  | nan : Json
  | inf (neg : Bool) : Json
  | str (s : List Char) : Json
  | arr (xs : List Json) : Json
  | obj (kvs : List (List Char × Json)) : Json
deriving Repr

/-- JSON whitespace (the four characters Python's `json` module skips). -/
def isJsonWs (c : Char) : Bool :=
  c = ' ' || c = '\t' || c = '\n' || c = '\r'

/-- Skip leading JSON whitespace. -/
def skipWs (cs : List Char) : List Char := cs.dropWhile isJsonWs

/-- Drop an expected literal (e.g. the tail of `true`) from the input. -/
def dropLit : List Char → List Char → Option (List Char)
  | [], cs => some cs
  | _ :: _, [] => none
  | p :: ps, c :: cs => if c = p then dropLit ps cs else none

/-- Hexadecimal digit value. -/
def hexVal (c : Char) : Option Nat :=
  if '0' ≤ c ∧ c ≤ '9' then some (c.toNat - 48)
  else if 'a' ≤ c ∧ c ≤ 'f' then some (c.toNat - 87)
  else if 'A' ≤ c ∧ c ≤ 'F' then some (c.toNat - 55)
  else none

/-- Parse the body of a JSON string literal (the opening quote already
consumed), handling the escape sequences Python accepts in strict mode and
rejecting raw control characters.  Modelling restriction: a `\\u` escape that
encodes a lone UTF-16 surrogate is rejected (Python would keep the surrogate
in the `str`; Lean `Char` cannot represent it); surrogate pairs are combined
as Python does. -/
def parseStrBody : List Char → List Char → Option (List Char × List Char)
  | _, [] => none
  | acc, c :: rest =>
    if c = qChar then some (acc.reverse, rest)
    else if c = bsChar then
      match rest with
      | [] => none
      | e :: r2 =>
        if e = qChar then parseStrBody (qChar :: acc) r2
        else if e = bsChar then parseStrBody (bsChar :: acc) r2
        else if e = '/' then parseStrBody ('/' :: acc) r2
        else if e = 'b' then parseStrBody (Char.ofNat 8 :: acc) r2
        else if e = 'f' then parseStrBody (Char.ofNat 12 :: acc) r2
        else if e = 'n' then parseStrBody ('\n' :: acc) r2
        else if e = 'r' then parseStrBody ('\r' :: acc) r2
        else if e = 't' then parseStrBody ('\t' :: acc) r2
        else if e = 'u' then
          match r2 with
          | h1 :: h2 :: h3 :: h4 :: r3 =>
            match hexVal h1, hexVal h2, hexVal h3, hexVal h4 with
            | some a, some b, some cc, some d =>
              let n := a * 4096 + b * 256 + cc * 16 + d
              if 55296 ≤ n ∧ n ≤ 56319 then
                match r3 with
                | b1 :: u1 :: g1 :: g2 :: g3 :: g4 :: r4 =>
                  if b1 = bsChar ∧ u1 = 'u' then
                    match hexVal g1, hexVal g2, hexVal g3, hexVal g4 with
                    | some a2, some b2, some c2, some d2 =>
                      let m := a2 * 4096 + b2 * 256 + c2 * 16 + d2
                      if 56320 ≤ m ∧ m ≤ 57343 then
                        parseStrBody
                          (Char.ofNat (65536 + (n - 55296) * 1024 + (m - 56320)) :: acc) r4
                      else none
                    | _, _, _, _ => none
                  else none
                | _ => none
              else if 56320 ≤ n ∧ n ≤ 57343 then none
              else parseStrBody (Char.ofNat n :: acc) r3
            | _, _, _, _ => none
          | _ => none
        else none
    else if c.toNat < 32 then none
    else parseStrBody (c :: acc) rest

/-- Take a maximal run of decimal digits, returning their values and the rest. -/
def takeDigits : List Char → (List Nat × List Char)
  | [] => ([], [])
  | c :: rest =>
    if '0' ≤ c ∧ c ≤ '9' then
      let p := takeDigits rest
      ((c.toNat - 48) :: p.1, p.2)
    else ([], c :: rest)

/-- Digit list to value, most significant first. -/
def digitsVal (ds : List Nat) : Nat := ds.foldl (fun a d => a * 10 + d) 0

/-- Parse a JSON number starting at `cs` (Python's `NUMBER_RE`: optional minus,
`0` or a nonzero-led digit run, optional fraction, optional exponent).  A pure
integer literal becomes `Json.num`; anything with a fraction or exponent is
kept exact as `Json.numF` (a deliberate embedding of Python's float result as
exact decimal data). -/
def parseNum (cs : List Char) : Option (Json × List Char) :=
  let signed : Bool × List Char :=
    match cs with
    | c :: rest => if c = '-' then (true, rest) else (false, cs)
    | [] => (false, [])
  match signed.2 with
  | [] => none
  | c :: rest =>
    if ¬ ('0' ≤ c ∧ c ≤ '9') then none
    else
      let ipPart : Nat × List Char :=
        if c = '0' then (0, rest)
        else
          let p := takeDigits (c :: rest)
          (digitsVal p.1, p.2)
      let ip : Int := if signed.1 then - (ipPart.1 : Int) else (ipPart.1 : Int)
      let fracPart : Option (List Nat) × List Char :=
        match ipPart.2 with
        | d :: r2 =>
          if d = '.' then
            let p := takeDigits r2
            if p.1 = [] then (none, d :: r2) else (some p.1, p.2)
          else (none, d :: r2)
        | [] => (none, [])
      match fracPart.1, fracPart.2 with
      | none, r2 =>
        match r2 with
        | e :: r3 =>
          if e = 'e' ∨ e = 'E' then
            match parseExp r3 with
            | some (ex, r4) => some (Json.numF ip [] ex, r4)
            | none => none
          else some (Json.num ip, r2)
        | [] => some (Json.num ip, [])
      | some fr, r2 =>
        match r2 with
        | e :: r3 =>
          if e = 'e' ∨ e = 'E' then
            match parseExp r3 with
            | some (ex, r4) => some (Json.numF ip fr ex, r4)
            | none => none
          else some (Json.numF ip fr 0, r2)
        | [] => some (Json.numF ip fr 0, [])
where
  parseExp (r : List Char) : Option (Int × List Char) :=
    let sgn : Bool × List Char :=
      match r with
      | s :: r2 => if s = '-' then (true, r2) else if s = '+' then (false, r2) else (false, r)
      | [] => (false, [])
    let p := takeDigits sgn.2
    if p.1 = [] then none
    else some (if sgn.1 then - (digitsVal p.1 : Int) else (digitsVal p.1 : Int), p.2)

mutual

/-- Fuel-indexed recursive-descent parse of one JSON value, mirroring
`json.loads`'s grammar; the caller supplies fuel exceeding the input length. -/
def parseVal : Nat → List Char → Option (Json × List Char)
  | 0, _ => none
  | fuel + 1, cs =>
    match cs with
    | [] => none
    | c :: rest =>
      if c = lbChar then
        let cs1 := skipWs rest
        match cs1 with
        | d :: r2 => if d = rbChar then some (Json.obj [], r2) else
            match parseMems fuel cs1 with
            | some (kvs, r3) => some (Json.obj kvs, r3)
            | none => none
        | [] => none
      else if c = '[' then
        let cs1 := skipWs rest
        match cs1 with
        | d :: r2 => if d = ']' then some (Json.arr [], r2) else
            match parseItems fuel cs1 with
            | some (xs, r3) => some (Json.arr xs, r3)
            | none => none
        | [] => none
      else if c = qChar then
        match parseStrBody [] rest with
        | some (s, r2) => some (Json.str s, r2)
        | none => none
      else if c = 't' then
        match dropLit (sl ("rue")) rest with
        | some r2 => some (Json.bool true, r2)
        | none => none
      else if c = 'f' then
        match dropLit (sl ("alse")) rest with
        | some r2 => some (Json.bool false, r2)
        | none => none
      else if c = 'n' then
        match dropLit (sl ("ull")) rest with
        | some r2 => some (Json.null, r2)
        | none => none
      else if c = 'N' then
        match dropLit (sl ("aN")) rest with
        | some r2 => some (Json.nan, r2)
        | none => none
      else if c = 'I' then
        match dropLit (sl ("nfinity")) rest with
        | some r2 => some (Json.inf false, r2)
        | none => none
      else if c = '-' then
        match rest with
        | 'I' :: r2 =>
          match dropLit (sl ("nfinity")) r2 with
          | some r3 => some (Json.inf true, r3)
          | none => none
        | _ => parseNum cs
      else if '0' ≤ c ∧ c ≤ '9' then parseNum cs
      else none

/-- Array elements: the input starts at a value; after each value, a comma
continues and `]` closes. -/
def parseItems : Nat → List Char → Option (List Json × List Char)
  | 0, _ => none
  | fuel + 1, cs =>
    match parseVal fuel cs with
    | none => none
    | some (v, rest) =>
      match skipWs rest with
      | [] => none
      | c :: r2 =>
        if c = ']' then some ([v], r2)
        else if c = ',' then
          match parseItems fuel (skipWs r2) with
          | some (vs, r3) => some (v :: vs, r3)
          | none => none
        else none

/-- Object members: the input starts at a string key; after each pair, a comma
continues and the closing brace ends the object. -/
def parseMems : Nat → List Char → Option (List (List Char × Json) × List Char)
  | 0, _ => none
  | fuel + 1, cs =>
    match cs with
    | [] => none
    | c :: rest =>
      if c = qChar then
        match parseStrBody [] rest with
        | none => none
        | some (k, r1) =>
          match skipWs r1 with
          | [] => none
          | c2 :: r3 =>
            if c2 = ':' then
              match parseVal fuel (skipWs r3) with
              | none => none
              | some (v, r4) =>
                match skipWs r4 with
                | [] => none
                | c3 :: r6 =>
                  if c3 = rbChar then some ([(k, v)], r6)
                  else if c3 = ',' then
                    match parseMems fuel (skipWs r6) with
                    | some (kvs, r7) => some ((k, v) :: kvs, r7)
                    | none => none
                  else none
            else none
      else none

end

/-- Embedding of `json.loads`: skip leading whitespace, parse one value, and
require only whitespace to remain ("Extra data" otherwise). -/
def json_parse (cs : List Char) : Option Json :=
  match parseVal (2 * cs.length + 4) (skipWs cs) with
  | some (v, rest) => if skipWs rest = [] then some v else none
  | none => none

/-- Whitespace stripped by Python `str.strip()` (the six ASCII whitespace
characters; exotic Unicode spaces are outside the model). -/
def isPyWs (c : Char) : Bool :=
  c = ' ' || c = '\t' || c = '\n' || c = '\r' || c = Char.ofNat 11 || c = Char.ofNat 12

/-- Embedding of Python `str.strip()`. -/
def pyStrip (cs : List Char) : List Char :=
  ((cs.dropWhile isPyWs).reverse.dropWhile isPyWs).reverse

/-- Does `cs` start with the pattern `p` (Python `str.startswith`)? -/
def startsW (p cs : List Char) : Bool := decide (cs.take p.length = p)

/-- Does `cs` end with the pattern `p` (Python `str.endswith`)? -/
def endsW (p cs : List Char) : Bool :=
  decide (p.length ≤ cs.length ∧ cs.drop (cs.length - p.length) = p)

/-- The fence-stripping and trimming applied to agent text before JSON
extraction (`scheduler/main.py` lines 297-303; the handover sequence at lines
191-194 applies the identical four steps): strip, drop a leading markdown
fence marker, drop a trailing fence marker, strip again.  The two fence checks
are independent in the source, not a single whole-text-is-fenced test. -/
def cleanText (raw : List Char) : List Char :=
  let c0 := pyStrip raw
  let c1 := if startsW (sl ("```json")) c0 then c0.drop 7 else c0
  let c2 := if endsW (sl ("```")) c1 then c1.take (c1.length - 3) else c1
  pyStrip c2

/-- Index of the first occurrence of `t` in `l`, counting from `i`. -/
def findIdx0 : List Char → Char → Nat → Option Nat
  | [], _, _ => none
  | c :: rest, t, i => if c = t then some i else findIdx0 rest t (i + 1)

/-- Embedding of Python `str.rfind(t)` (last occurrence; `none` for `-1`). -/
def rfindChar (cs : List Char) (t : Char) : Option Nat :=
  match findIdx0 cs.reverse t 0 with
  | some k => some (cs.length - 1 - k)
  | none => none

/-- Python slice `cs[a : b]`. -/
def slice (cs : List Char) (a b : Nat) : List Char := (cs.drop a).take (b - a)

/-- Ascending indices of the occurrences of `t` in the text, the count
starting at `i`: exactly the successive answers of Python's
`str.find(t, start)` as `start` advances past each hit. -/
def idxsFrom (t : Char) : List Char → Nat → List Nat
  | [], _ => []
  | c :: rest, i =>
    if c = t then i :: idxsFrom t rest (i + 1) else idxsFrom t rest (i + 1)

/-- All opening-brace positions of the text, ascending. -/
def lbPositions (cs : List Char) : List Nat := idxsFrom lbChar cs 0

/-- The robust-extraction while loop (`scheduler/main.py` lines 318-328),
embedded as structural recursion over the ascending opening-brace positions
that the loop's successive `str.find("{", start + 1)` calls enumerate: while
the current position is left of the fixed closing index `e`, try to parse
the slice up to `e`, advancing past the brace on a parse failure and
stopping at the first success; a position at or beyond `e` exits the loop. -/
def scanLoop (cs : List Char) (e : Nat) : List Nat → Option Json
  | [] => none
  | i :: rest =>
    if i < e then
      match json_parse (slice cs i (e + 1)) with
      | some v => some v
      | none => scanLoop cs e rest
    else none

/-- The brace-scan stage of the Result Extractor: the fixed closing index is
the last closing brace (`rfind`), the scan starts at the first opening
brace. -/
def braceScan (cs : List Char) : Option Json :=
  match rfindChar cs rbChar with
  | none => none
  | some e => scanLoop cs e (lbPositions cs)

/-- The parse-failure fallback value: the original, unmodified raw text under
a single `raw_output` key (`scheduler/main.py` line 338). -/
def rawFallback (raw : List Char) : Json :=
  Json.obj [(sl ("raw_output"), Json.str raw)]

/-- The Result Extractor (`scheduler/main.py` lines 297-338): clean the text,
run the brace scan; if it produced nothing, try parsing the whole cleaned
text; if that also fails, degrade to the `raw_output` fallback built from the
original input. -/
def extract (raw : List Char) : Json :=
  match braceScan (cleanText raw) with
  | some v => v
  | none =>
    match json_parse (cleanText raw) with
    | some v => v
    | none => rawFallback raw

/-- The spec's wording of the brace scan (spec §4.4 step 2): fix the last
closing brace as the end index, then over every opening-brace position up to
that end index, left to right, attempt a parse of the slice and return the
first success. -/
def specScan (cs : List Char) : Option Json :=
  match rfindChar cs rbChar with
  | none => none
  | some e =>
    ((lbPositions cs).takeWhile (fun i => decide (i < e))).findSome?
      (fun i => json_parse (slice cs i (e + 1)))

theorem scanLoop_eq_spec (cs : List Char) (e : Nat) (l : List Nat) :
    scanLoop cs e l =
      (l.takeWhile (fun i => decide (i < e))).findSome?
        (fun i => json_parse (slice cs i (e + 1))) := by
  induction l with
  | nil => rfl
  | cons i rest ih =>
    unfold scanLoop
    by_cases hi : i < e
    · have ht : List.takeWhile (fun j => decide (j < e)) (i :: rest) =
          i :: List.takeWhile (fun j => decide (j < e)) rest := by
        simp [List.takeWhile_cons, hi]
      rw [if_pos hi, ht, List.findSome?_cons]
      cases hp : json_parse (slice cs i (e + 1)) with
      | some v => rfl
      | none => exact ih
    · have ht : List.takeWhile (fun j => decide (j < e)) (i :: rest) = [] := by
        simp [List.takeWhile_cons, hi]
      rw [if_neg hi, ht]
      rfl

/-- The source's scan loop computes exactly the spec-worded first-success
scan. -/
theorem braceScan_eq_specScan (cs : List Char) : braceScan cs = specScan cs := by
  unfold braceScan specScan
  cases rfindChar cs rbChar with
  | none => rfl
  | some e => exact scanLoop_eq_spec cs e (lbPositions cs)

theorem dropWhile_head_false {α : Type} (p : α → Bool) :
    ∀ (l : List α) (x : α) (xs : List α), l.dropWhile p = x :: xs → p x = false := by
  intro l
  induction l with
  | nil => intro x xs h; simp [List.dropWhile] at h
  | cons c cs ih =>
    intro x xs h
    rw [List.dropWhile_cons] at h
    by_cases hc : p c = true
    · rw [if_pos hc] at h
      exact ih x xs h
    · rw [if_neg hc] at h
      injection h with h1 h2
      subst h1
      simpa using hc

theorem dropWhile_eq_self {α : Type} (p : α → Bool) (l : List α)
    (h : ∀ x xs, l = x :: xs → p x = false) : l.dropWhile p = l := by
  cases l with
  | nil => rfl
  | cons c cs =>
    rw [List.dropWhile_cons, if_neg]
    simp [h c cs rfl]

theorem dropWhile_eq_drop {α : Type} (p : α → Bool) :
    ∀ l : List α, ∃ k, l.dropWhile p = l.drop k := by
  intro l
  induction l with
  | nil => exact ⟨0, rfl⟩
  | cons c cs ih =>
    rw [List.dropWhile_cons]
    by_cases hc : p c = true
    · obtain ⟨k, hk⟩ := ih
      exact ⟨k + 1, by rw [if_pos hc]; simpa using hk⟩
    · exact ⟨0, by rw [if_neg hc]; rfl⟩

theorem take_cons_of_cons {α : Type} {l : List α} {m : Nat} {x : α} {xs : List α}
    (h : l.take m = x :: xs) : ∃ t, l = x :: t := by
  cases m with
  | zero => simp at h
  | succ m =>
    cases l with
    | nil => simp at h
    | cons y ys =>
      simp only [List.take_succ_cons] at h
      injection h with h1 h2
      exact ⟨ys, by rw [h1]⟩

/-- Python `strip` is idempotent: the cleaned text of an already-stripped
string is itself. -/
theorem pyStrip_idem (cs : List Char) : pyStrip (pyStrip cs) = pyStrip cs := by
  set p := isPyWs with hp
  set d := cs.dropWhile p with hd
  have hr : pyStrip cs = (d.reverse.dropWhile p).reverse := rfl
  -- the stripped string is a front segment (take) of d
  obtain ⟨k, hk⟩ := dropWhile_eq_drop p d.reverse
  have hrt : pyStrip cs = d.take (d.length - k) := by
    rw [hr, hk, List.reverse_drop, List.reverse_reverse, List.length_reverse]
  -- leading strip is a no-op on the already-stripped string
  have h1 : (pyStrip cs).dropWhile p = pyStrip cs := by
    apply dropWhile_eq_self
    intro x xs hx
    rw [hrt] at hx
    obtain ⟨t, ht⟩ := take_cons_of_cons hx
    exact dropWhile_head_false p cs x t (hd ▸ ht)
  -- trailing strip is a no-op too
  have h2 : (pyStrip cs).reverse.dropWhile p = (pyStrip cs).reverse := by
    apply dropWhile_eq_self
    intro x xs hx
    have hxr : d.reverse.dropWhile p = x :: xs := by
      rw [hr, List.reverse_reverse] at hx
      exact hx
    exact dropWhile_head_false p d.reverse x xs hxr
  show ((pyStrip cs).dropWhile p |>.reverse.dropWhile p).reverse = pyStrip cs
  rw [h1, h2, List.reverse_reverse]

/-- With neither fence marker present on the stripped text, `cleanText` is
just Python `strip`. -/
theorem cleanText_no_fence (raw : List Char)
    (h1 : startsW (sl ("```json")) (pyStrip raw) = false)
    (h2 : endsW (sl ("```")) (pyStrip raw) = false) :
    cleanText raw = pyStrip raw := by
  unfold cleanText
  simp [h1, h2, pyStrip_idem]

/-- Decimal rendering worker, fuel-indexed so the definition is structural
(and hence computes inside the kernel); `natToDec` supplies ample fuel. -/
def natToDecAux : Nat → Nat → List Char
  | 0, _ => []
  | fuel + 1, n =>
    if n < 10 then [Nat.digitChar n]
    else natToDecAux fuel (n / 10) ++ [Nat.digitChar (n % 10)]

/-- Decimal rendering of a natural number, most significant digit first. -/
def natToDec (n : Nat) : List Char := natToDecAux (n + 1) n

/-- Decimal digit test. -/
def isDigitCh (c : Char) : Bool := decide ('0' ≤ c ∧ c ≤ '9')

/-- Parse a nonempty all-digit string back to a natural number. -/
def decParse (cs : List Char) : Option Nat :=
  if cs ≠ [] ∧ cs.all isDigitCh then
    some (cs.foldl (fun a c => a * 10 + (c.toNat - 48)) 0)
  else none

/-- Timestamps are modelled as absolute seconds (`Nat`); `datetime.isoformat`
(Python stdlib, external to the repository) is embedded as an injective
decimal rendering of the timestamp. -/
def isoformat (t : Nat) : List Char := natToDec t

/-- Embedding of `datetime.fromisoformat`, the parse inverse of `isoformat`;
unparseable input is `none` (the `ValueError` branch of `load_session_id`). -/
def fromisoformat (cs : List Char) : Option Nat := decParse cs

theorem digitChar_toNat : ∀ d, d < 10 → (Nat.digitChar d).toNat = 48 + d := by decide

theorem digitChar_isDigit : ∀ d, d < 10 → isDigitCh (Nat.digitChar d) = true := by decide

theorem natToDecAux_ne_nil (fuel n : Nat) (h : n < fuel) : natToDecAux fuel n ≠ [] := by
  cases fuel with
  | zero => omega
  | succ fuel =>
    rw [natToDecAux]
    split
    · simp
    · simp

theorem natToDec_ne_nil (n : Nat) : natToDec n ≠ [] :=
  natToDecAux_ne_nil (n + 1) n (by omega)

theorem natToDecAux_all_digits :
    ∀ fuel n, n < fuel → (natToDecAux fuel n).all isDigitCh = true := by
  intro fuel
  induction fuel with
  | zero => intro n h; omega
  | succ fuel ih =>
    intro n h
    rw [natToDecAux]
    split
    · rename_i hn
      simp [digitChar_isDigit n hn]
    · rename_i hn
      rw [List.all_append]
      have hd : n / 10 < n := Nat.div_lt_self (by omega) (by omega)
      rw [ih (n / 10) (by omega)]
      simp [digitChar_isDigit (n % 10) (Nat.mod_lt n (by omega))]

theorem natToDec_all_digits (n : Nat) : (natToDec n).all isDigitCh = true :=
  natToDecAux_all_digits (n + 1) n (by omega)

theorem natToDecAux_foldl :
    ∀ fuel n, n < fuel →
      (natToDecAux fuel n).foldl (fun a c => a * 10 + (c.toNat - 48)) 0 = n := by
  intro fuel
  induction fuel with
  | zero => intro n h; omega
  | succ fuel ih =>
    intro n h
    rw [natToDecAux]
    split
    · rename_i hn
      simp [digitChar_toNat n hn]
    · rename_i hn
      rw [List.foldl_append]
      have hd : n / 10 < n := Nat.div_lt_self (by omega) (by omega)
      rw [ih (n / 10) (by omega)]
      simp only [List.foldl_cons, List.foldl_nil]
      rw [digitChar_toNat (n % 10) (Nat.mod_lt n (by omega))]
      omega

theorem natToDec_foldl (n : Nat) :
    (natToDec n).foldl (fun a c => a * 10 + (c.toNat - 48)) 0 = n :=
  natToDecAux_foldl (n + 1) n (by omega)

/-- The modelled time serialization round-trips, which is the contract
`load_session_id` relies on for the stdlib pair
`isoformat`/`fromisoformat`. -/
theorem fromisoformat_isoformat (t : Nat) : fromisoformat (isoformat t) = some t := by
  unfold fromisoformat isoformat decParse
  rw [if_pos ⟨natToDec_ne_nil t, natToDec_all_digits t⟩]
  rw [natToDec_foldl t]

/-- Lookup in an object member list with Python dict semantics: a later
duplicate key overwrites an earlier one. -/
def lookupLast (kvs : List (List Char × Json)) (k : List Char) : Option Json :=
  match kvs with
  | [] => none
  | (k2, v) :: rest =>
    match lookupLast rest k with
    | some v2 => some v2
    | none => if k2 = k then some v else none

/-- Python `data.get(k)` on a parsed JSON value (only objects have keys). -/
def objGet (j : Json) (k : List Char) : Option Json :=
  match j with
  | Json.obj kvs => lookupLast kvs k
  | _ => none

/-- Python `k in data` combined with the `isinstance(data, dict)` guard:
true exactly for an object that has the key. -/
def keyMem (j : Json) (k : List Char) : Bool :=
  match j with
  | Json.obj kvs => kvs.any (fun p => decide (p.1 = k))
  | _ => false

/-- Python truthiness of a JSON value. -/
def truthy : Json → Bool
  | Json.null => false
  | Json.bool b => b
  | Json.num n => decide (n ≠ 0)
  | Json.numF ip fr _ => decide (ip ≠ 0) || fr.any (fun d => decide (d ≠ 0))
  | Json.nan => true
  | Json.inf _ => true
  | Json.str s => decide (s ≠ [])
  | Json.arr xs => !xs.isEmpty
  | Json.obj kvs => !kvs.isEmpty

/-- Python `data.get(k)` where an absent key becomes JSON `null` when the
result is serialized (`dict.get` default `None`). -/
def getD (j : Json) (k : List Char) : Json := (objGet j k).getD Json.null

/-- The session record path (`SESSION_FILE_PATH` default). -/
def SESSION_FILE_PATH : List Char := sl ("/app/data/current_session.json")

/-- The context record path (`CONTEXT_FILE_PATH` default). -/
def CONTEXT_FILE_PATH : List Char := sl ("/app/data/latest_context.json")

/-- The JSON document `save_session_id` writes. -/
def sessionDoc (sid : List Char) (startT : Nat) : Json :=
  Json.obj [(sl ("session_id"), Json.str sid),
            (sl ("start_time"), Json.str (isoformat startT))]

/-- Embedding of `save_session_id` (`scheduler/main.py` lines 83-97) at the
document level: the store file afterwards holds the session record.  The byte
level I/O of the same function is `saveSessionOps` below. -/
def save_session_id (sid : List Char) (startT : Nat) (_old : Option Json) : Option Json :=
  some (sessionDoc sid startT)

/-- Embedding of `clear_session_id` (lines 99-106): the record file is removed
whether or not it existed. -/
def clear_session_id (_old : Option Json) : Option Json := none

/-- The tail of `load_session_id`: check `session_id` truthiness and return.
A truthy non-string id (impossible via `save_session_id`) is mapped to the
no-session answer; Python would return the raw value. -/
def sidCheck (kvs : List (List Char × Json)) (st : Option Nat) :
    Option (List Char) × Option Nat :=
  match lookupLast kvs (sl ("session_id")) with
  | some (Json.str s) => if s = [] then (none, none) else (some s, st)
  | _ => (none, none)

/-- Embedding of `load_session_id` (lines 59-81).  The file holds a parsed
JSON document (`none` = file absent).  A missing/invalid `start_time` string
yields `none` for the start time (the `ValueError` pass); a truthy non-string
`start_time` raises `TypeError`, caught by the outer handler, so the whole
load degrades to `(none, none)`; a non-object document raises
`AttributeError` at `.get`, likewise caught. -/
def load_session_id (file : Option Json) : Option (List Char) × Option Nat :=
  match file with
  | none => (none, none)
  | some (Json.obj kvs) =>
    match lookupLast kvs (sl ("start_time")) with
    | some v =>
      if truthy v then
        match v with
        | Json.str s => sidCheck kvs (fromisoformat s)
        | _ => (none, none)
      else sidCheck kvs none
    | none => sidCheck kvs none
  | some _ => (none, none)

/-- The Context Snapshot `save_context` builds (lines 118-134): exactly a
timestamp plus the four fields lifted off the structured result. -/
def contextSnapshot (data : Json) (now : Nat) : Json :=
  Json.obj [(sl ("timestamp"), Json.str (isoformat now)),
            (sl ("plant_status"), getD data (sl ("plant_status"))),
            (sl ("growth_stage"), getD data (sl ("growth_stage"))),
            (sl ("last_operation"), getD data (sl ("operation"))),
            (sl ("last_comment"), getD data (sl ("comment")))]

/-- Embedding of `save_context`: overwrite the context file with the snapshot.
On a non-object argument Python's `.get` would raise and the function's own
`except` leaves the file untouched (`data` is always an object at the call
sites). -/
def save_context (data : Json) (now : Nat) (file : Option Json) : Option Json :=
  match data with
  | Json.obj _ => some (contextSnapshot data now)
  | _ => file

/-- Embedding of `load_context` (lines 108-116): the parsed document or
Python `None`. -/
def load_context (file : Option Json) : Option Json := file

/-- Quiet-hours configuration (`START_QUIET_HOUR`, `END_QUIET_HOUR`,
`QUIET_INTERVAL_MINUTES`). -/
structure QuietCfg where
  startQuietHour : Nat
  endQuietHour : Nat
  quietIntervalMinutes : Nat

/-- Embedding of `is_quiet_hour` (lines 36-41), including the overnight
wrap-around case. -/
def is_quiet_hour (cfg : QuietCfg) (hour : Nat) : Bool :=
  if cfg.startQuietHour > cfg.endQuietHour then
    decide (hour ≥ cfg.startQuietHour) || decide (hour < cfg.endQuietHour)
  else
    decide (cfg.startQuietHour ≤ hour) && decide (hour < cfg.endQuietHour)

/-- The hour of an absolute-seconds wall-clock time. -/
def hourOf (t : Nat) : Nat := t / 3600 % 24

/-- Embedding of `should_skip_quiet_time` (lines 43-57).  `elapsed_minutes`
(a Python float) is computed exactly in `ℚ`. -/
def should_skip_quiet_time (cfg : QuietCfg) (now : Nat) (lastRun : Option Nat) : Bool :=
  if is_quiet_hour cfg (hourOf now) then
    match lastRun with
    | some lr =>
      if ((now : ℚ) - (lr : ℚ)) / 60 < (cfg.quietIntervalMinutes : ℚ) then true
      else false
    | none => false
  else false

/-- The context-write condition in the 200 branch of `run_job` (lines
344-345): `isinstance(structured_data, dict) and "plant_status" in
structured_data` — `keyMem` is false on every non-object. -/
def mainContextWrite (structured : Json) (now : Nat) (ctx : Option Json) : Option Json :=
  if keyMem structured (sl ("plant_status")) then save_context structured now ctx else ctx

/-- The parse-and-persist portion of the HTTP-200 branch: run the Result
Extractor on the concatenated agent text and conditionally overwrite the
Context Store; the first component is the structured value handed to the
execution-log step. -/
def successStep (agent_text : List Char) (now : Nat) (ctx : Option Json) :
    Json × Option Json :=
  (extract agent_text, mainContextWrite (extract agent_text) now ctx)

/-- Render an `Int` in decimal. -/
def intToDec (n : Int) : List Char :=
  if n < 0 then '-' :: natToDec n.natAbs else natToDec n.toNat

/-- A hexadecimal digit character (lowercase, as `json.dumps` emits). -/
def hexDigitCh (n : Nat) : Char :=
  if n < 10 then Nat.digitChar n else Char.ofNat (87 + n)

/-- Four hex digits of a code point below 0x10000. -/
def hex4 (n : Nat) : List Char :=
  [hexDigitCh (n / 4096 % 16), hexDigitCh (n / 256 % 16),
   hexDigitCh (n / 16 % 16), hexDigitCh (n % 16)]

/-- String-content escaping for the `json.dumps` model: quote, backslash and
control characters are escaped; code points ≥ 128 are left raw (exact for the
`ensure_ascii=False` call in `save_context`; for the default-`ensure_ascii`
fallback paths only the spelling of non-ASCII bytes differs, which no claim
observes). -/
def escStr : List Char → List Char
  | [] => []
  | c :: rest =>
    (if c = qChar then [bsChar, qChar]
     else if c = bsChar then [bsChar, bsChar]
     else if c = '\n' then [bsChar, 'n']
     else if c = '\t' then [bsChar, 't']
     else if c = '\r' then [bsChar, 'r']
     else if c.toNat = 8 then [bsChar, 'b']
     else if c.toNat = 12 then [bsChar, 'f']
     else if c.toNat < 32 then bsChar :: 'u' :: hex4 c.toNat
     else [c]) ++ escStr rest

mutual

/-- Model of `json.dumps` with the default separators (`", "`, `": "`);
`save_context` passes `indent=2`, which only changes inter-token whitespace
of the written bytes, not the document. -/
def render : Json → List Char
  | Json.null => sl ("null")
  | Json.bool true => sl ("true")
  | Json.bool false => sl ("false")
  | Json.num n => intToDec n
  | Json.numF ip fr ex =>
    intToDec ip ++ (if fr = [] then [] else '.' :: fr.map Nat.digitChar) ++
      (if ex = 0 then [] else 'e' :: intToDec ex)
  | Json.nan => sl ("NaN")
  | Json.inf true => sl ("-Infinity")
  | Json.inf false => sl ("Infinity")
  | Json.str s => qChar :: (escStr s ++ [qChar])
  | Json.arr xs => '[' :: (renderItems xs ++ [']'])
  | Json.obj kvs => lbChar :: (renderMems kvs ++ [rbChar])

/-- Comma-separated rendering of array elements. -/
def renderItems : List Json → List Char
  | [] => []
  | [x] => render x
  | x :: y :: rest => render x ++ sl (", ") ++ renderItems (y :: rest)

/-- Comma-separated rendering of object members. -/
def renderMems : List (List Char × Json) → List Char
  | [] => []
  | [(k, v)] => (qChar :: (escStr k ++ [qChar])) ++ sl (": ") ++ render v
  | (k, v) :: y :: rest =>
    (qChar :: (escStr k ++ [qChar])) ++ sl (": ") ++ render v ++ sl (", ") ++
      renderMems (y :: rest)

end

/-- Primitive file-system operations; `save_session_id` and `save_context`
are additionally embedded at this granularity for the atomicity claim. -/
inductive FsOp where
  | mkdirs (dir : List Char)
  | writeFile (path : List Char) (content : List Char)
  | fsyncFile (path : List Char)
  | renameFile (src dst : List Char)
  | removeFile (path : List Char)

/-- Is this operation a rename? -/
def FsOp.isRename : FsOp → Bool
  | FsOp.renameFile _ _ => true
  | _ => false

/-- Is this operation an fsync? -/
def FsOp.isFsync : FsOp → Bool
  | FsOp.fsyncFile _ => true
  | _ => false

/-- The I/O operations `save_session_id` issues, in order (lines 83-97):
`os.makedirs(..., exist_ok=True)` then a single `open(path, "w")` +
`json.dump` — writing the final path directly; no temporary file, no fsync,
no rename. -/
def saveSessionOps (sid : List Char) (startT : Nat) : List FsOp :=
  [FsOp.mkdirs (sl ("/app/data")),
   FsOp.writeFile SESSION_FILE_PATH (render (sessionDoc sid startT))]

/-- The I/O operations `save_context` issues, in order (lines 118-134):
makedirs then a single direct write of the snapshot to the final path. -/
def saveContextOps (data : Json) (now : Nat) : List FsOp :=
  [FsOp.mkdirs (sl ("/app/data")),
   FsOp.writeFile CONTEXT_FILE_PATH (render (contextSnapshot data now))]

/-- A hard crash `k` bytes into a non-atomic in-place write leaves the prefix
of the new content at the path. -/
def crashDuringWrite (content : List Char) (k : Nat) : List Char := content.take k

/-- Outcome of one remote HTTP call: a status code with a parsed JSON body,
or a transport-level exception. -/
inductive RunOutcome where
  | resp (code : Nat) (body : Json)
  | exn

/-- The handover's own text extraction (lines 178-189): start from
`json.dumps` of the whole body; if the body is a nonempty list, take the
first event's `content.parts[0].text` with `.get` defaults.  `none` models an
exception inside the handover `try` (failed handover, context untouched). -/
def handoverText (body : Json) : Option (List Char) :=
  match body with
  | Json.arr (e0 :: _) =>
    match e0 with
    | Json.obj kvs0 =>
      match (lookupLast kvs0 (sl ("content"))).getD (Json.obj []) with
      | Json.obj ckvs =>
        match (lookupLast ckvs (sl ("parts"))).getD (Json.arr []) with
        | Json.arr [] => some (render body)
        | Json.arr (p0 :: _) =>
          match p0 with
          | Json.obj pkvs =>
            match lookupLast pkvs (sl ("text")) with
            | some (Json.str t) => some t
            | some _ => none
            | none => some (render body)
          | _ => none
        | other => if truthy other then none else some (render body)
      | _ => none
    | _ => none
  | _ => some (render body)

/-- The handover sequence's effect on the Context Store (lines 170-212): on a
200 response, strip fences from the extracted text and run a single direct
`json.loads` — the §4.4 brace scan is NOT applied here; an object result is
persisted; a parse failure persists the degraded
`plant_status = "Handover (Raw)"` snapshot; a parsed non-object persists
nothing; any other status or exception leaves the store untouched. -/
def doHandover (h : RunOutcome) (now : Nat) (ctx : Option Json) : Option Json :=
  match h with
  | RunOutcome.exn => ctx
  | RunOutcome.resp code body =>
    if code = 200 then
      match handoverText body with
      | none => ctx
      | some htext =>
        match json_parse (cleanText htext) with
        | some (Json.obj kvs) => save_context (Json.obj kvs) now ctx
        | some _ => ctx
        | none =>
          save_context
            (Json.obj [(sl ("plant_status"), Json.str (sl ("Handover (Raw)"))),
                       (sl ("comment"), Json.str htext)]) now ctx
    else ctx

/-- Text of one response part (`part["text"]` when the key is present and the
value is a string; ill-typed parts, which would raise inside the outer
`try`, contribute nothing in the model). -/
def partText (p : Json) : List Char :=
  match p with
  | Json.obj kvs =>
    match lookupLast kvs (sl ("text")) with
    | some (Json.str t) => t
    | _ => []
  | _ => []

/-- Concatenated text of one event's `content.parts` (lines 281-289). -/
def eventText (ev : Json) : List Char :=
  match ev with
  | Json.obj kvs =>
    match lookupLast kvs (sl ("content")) with
    | some c =>
      if truthy c then
        match c with
        | Json.obj ckvs =>
          match lookupLast ckvs (sl ("parts")) with
          | some (Json.arr ps) => ps.foldl (fun acc p => acc ++ partText p) []
          | _ => []
        | _ => []
      else []
    | none => []
  | _ => []

/-- All textual parts of the response events concatenated in order. -/
def collectText (body : Json) : List Char :=
  match body with
  | Json.arr events => events.foldl (fun acc ev => acc ++ eventText ev) []
  | _ => []

/-- The agent text handed to the extractor: the concatenation, or
`json.dumps(data)` when no text part was found (lines 291-293). -/
def agentTextOf (body : Json) : List Char :=
  let t := collectText body
  if t = [] then render body else t

/-- Scheduler configuration used by one cycle. -/
structure SchedCfg where
  quiet : QuietCfg
  sessionLifetimeDays : Nat

/-- The orchestrator state a cycle reads and writes: the two record files
(as parsed documents), the in-process `CURRENT_SESSION_ID` /
`CURRENT_SESSION_START` globals, and the module-level `LAST_RUN_TIME` global
that the Quiet-Hours Policy reads. -/
structure OrchState where
  sessionFile : Option Json
  contextFile : Option Json
  memSid : Option (List Char)
  memStart : Option Nat
  lastRun : Option Nat

/-- External-world inputs consumed by one cycle: the wall-clock time, the
answer to each session-create call (`some id` on success, `none` for any
failing create), the outcome of each `/run` call in order, and the outcome of
the handover `/run` call should a rotation happen (it can happen at most
once per cycle). -/
structure Oracle where
  now : Nat
  creates : List (Option (List Char))
  runs : List RunOutcome
  handover : RunOutcome

/-- Observable record of one cycle: the final state, whether the quiet-hours
gate skipped it, the session id used by each main `/run` call in order, the
session the handover was sent on (if any), the ids of sessions created, and
the structured value passed to the execution-log step (present exactly when a
`/run` call returned 200). -/
structure CycleRes where
  st : OrchState
  skipped : Bool
  runSids : List (List Char)
  handoverSid : Option (List Char)
  createdIds : List (List Char)
  logged : Option Json

/-- Build an unskipped cycle result. -/
def finishRes (st : OrchState) (runs : List (List Char)) (hov : Option (List Char))
    (made : List (List Char)) (logged : Option Json) : CycleRes :=
  ⟨st, false, runs, hov, made, logged⟩

/-- One pass of `run_job`'s `for attempt in range(max_retries + 1)` loop
(lines 146-407), with `fuel` = number of loop iterations still permitted
(`max_retries + 1 = 2` at entry).  Stages in source order: reload the session
from file when no in-memory id; rotate (handover, then clear) when the
session's age in whole days reaches the lifetime; create a session when none
remains, aborting the cycle on a create failure; POST the prompt; on 200
parse, conditionally write the context and log (the source's
`LAST_RUN_TIME = ...` on line 383 binds a function-local name — there is no
`global` declaration — so `lastRun` is deliberately left unchanged); on 404/500
clear the session store and retry if an attempt remains; on any other status
or exception abort. -/
def attemptGo (cfg : SchedCfg) (now : Nat) (hOutcome : RunOutcome) :
    Nat → List (Option (List Char)) → List RunOutcome → OrchState →
    List (List Char) → Option (List Char) → List (List Char) → CycleRes
  | 0, _, _, st, accR, accH, accC => finishRes st accR accH accC none
  | n + 1, creates, runs,
    ⟨sessionFile0, contextFile0, memSid0, memStart0, lastRun0⟩, accR, accH, accC =>
    match (match memSid0 with
           | none => load_session_id sessionFile0
           | some s => (some s, memStart0) :
           Option (List Char) × Option Nat) with
    | (psid, pstart) =>
      let rot : Bool :=
        match psid, pstart with
        | some _, some t0 =>
          decide (Int.fdiv ((now : Int) - (t0 : Int)) 86400 ≥ (cfg.sessionLifetimeDays : Int))
        | _, _ => false
      let accH1 := if rot then psid else accH
      match (if rot then (none, doHandover hOutcome now contextFile0, none, none)
             else (sessionFile0, contextFile0, psid, pstart) :
             Option Json × Option Json × Option (List Char) × Option Nat) with
      | (sessionFile1, contextFile1, memSid1, memStart1) =>
        match (match memSid1 with
               | some sid => some (sessionFile1, memStart1, sid, creates, accC)
               | none =>
                 match creates with
                 | [] => none
                 | none :: _ => none
                 | some cid :: crest =>
                   some (save_session_id cid now sessionFile1, some now, cid,
                         crest, accC ++ [cid]) :
               Option (Option Json × Option Nat × List Char ×
                       List (Option (List Char)) × List (List Char))) with
        | none =>
          finishRes ⟨sessionFile1, contextFile1, none, memStart1, lastRun0⟩
            accR accH1 accC none
        | some (sessionFile2, memStart2, sid, creates2, accC2) =>
          match runs with
          | [] =>
            finishRes ⟨sessionFile2, contextFile1, some sid, memStart2, lastRun0⟩
              accR accH1 accC2 none
          | RunOutcome.exn :: _ =>
            finishRes ⟨sessionFile2, contextFile1, some sid, memStart2, lastRun0⟩
              (accR ++ [sid]) accH1 accC2 none
          | RunOutcome.resp code body :: rrest =>
            if code = 200 then
              finishRes ⟨sessionFile2,
                  (successStep (agentTextOf body) now contextFile1).2,
                  some sid, memStart2, lastRun0⟩
                (accR ++ [sid]) accH1 accC2
                (some (successStep (agentTextOf body) now contextFile1).1)
            else if code = 404 ∨ code = 500 then
              if n > 0 then
                attemptGo cfg now hOutcome n creates2 rrest
                  ⟨none, contextFile1, none, none, lastRun0⟩
                  (accR ++ [sid]) accH1 accC2
              else
                finishRes ⟨none, contextFile1, none, none, lastRun0⟩
                  (accR ++ [sid]) accH1 accC2 none
            else
              finishRes ⟨sessionFile2, contextFile1, some sid, memStart2, lastRun0⟩
                (accR ++ [sid]) accH1 accC2 none

/-- Embedding of `run_job` (lines 139-407): the quiet-hours gate, then at
most `max_retries + 1 = 2` passes of the attempt loop. -/
def run_job (cfg : SchedCfg) (o : Oracle) (st : OrchState) : CycleRes :=
  match o, st with
  | ⟨now, creates, runs, handover⟩,
    ⟨sessionFile, contextFile, memSid, memStart, lastRun⟩ =>
    if should_skip_quiet_time cfg.quiet now lastRun then
      ⟨⟨sessionFile, contextFile, memSid, memStart, lastRun⟩, true, [], none, [], none⟩
    else
      attemptGo cfg now handover 2 creates runs
        ⟨sessionFile, contextFile, memSid, memStart, lastRun⟩ [] none []

/-- Is the value a JSON object? -/
def isObjB : Json → Bool
  | Json.obj _ => true
  | _ => false

theorem keyMem_eq_false_of_not_obj {v : Json} (h : isObjB v = false) (k : List Char) :
    keyMem v k = false := by
  cases v <;> simp_all [isObjB, keyMem]

/-- The keys of an object, in order. -/
def objKeys : Json → List (List Char)
  | Json.obj kvs => kvs.map Prod.fst
  | _ => []

/-- Default quiet-hours configuration of the worked examples: window
22:00-06:00, quiet interval 120 minutes. -/
def exampleQuiet : QuietCfg := ⟨22, 6, 120⟩

/-- Scheduler configuration of the worked examples (3-day session lifetime). -/
def exampleCfg : SchedCfg := ⟨exampleQuiet, 3⟩

/-- Response-event list with a single text part, the shape the agent endpoint
returns. -/
def textEvents (t : List Char) : Json :=
  Json.arr [Json.obj [(sl ("content"),
    Json.obj [(sl ("parts"), Json.arr [Json.obj [(sl ("text"), Json.str t)]])])]]

/-- The spec §8 example-scenario-2 input. -/
def ex3Text : List Char :=
  sl ("**Thinking**\nI should check.\n\n\x7b \"status\": \"ok\", \"comment\": \"Checked.\" \x7d")

/-- The object the example input must extract to. -/
def ex3Result : Json :=
  Json.obj [(sl ("status"), Json.str (sl ("ok"))),
            (sl ("comment"), Json.str (sl ("Checked.")))]

/-- A 200 body whose extracted result carries `plant_status`. -/
def okBody : Json :=
  textEvents (sl ("\x7b\"plant_status\": \"good\", \"comment\": \"ok\"\x7d"))

/-- A 200 body whose extracted result is the raw-output fallback. -/
def plainBody : Json := textEvents (sl ("done"))

/-- Handover response text: prose preamble followed by the JSON payload. -/
def hoText : List Char :=
  sl ("Summary:\n\x7b\"plant_status\": \"good\", \"comment\": \"ok\"\x7d")

/-- Handover 200 body carrying `hoText`. -/
def hbody : Json := textEvents hoText

/-- C6: the Quiet-Hours Policy is a pure decision.  Inside the quiet window
(which wraps past midnight when startHour > endHour), skipping happens
exactly when a prior successful run exists whose elapsed minutes are strictly
below the quiet interval; with no prior run, or enough elapsed time, the tick
executes; outside the window the tick always executes. -/
theorem C6_quiet_hours_pure_decision (cfg : QuietCfg) (now : Nat) (lastRun : Option Nat) :
    (is_quiet_hour cfg (hourOf now) = true →
      (should_skip_quiet_time cfg now lastRun = true ↔
        ∃ lr, lastRun = some lr ∧
          ((now : ℚ) - (lr : ℚ)) / 60 < (cfg.quietIntervalMinutes : ℚ))) ∧
    (is_quiet_hour cfg (hourOf now) = false →
      should_skip_quiet_time cfg now lastRun = false) ∧
    (cfg.startQuietHour > cfg.endQuietHour →
      (is_quiet_hour cfg (hourOf now) = true ↔
        (cfg.startQuietHour ≤ hourOf now ∨ hourOf now < cfg.endQuietHour))) := by
  refine ⟨?_, ?_, ?_⟩
  · intro hq
    unfold should_skip_quiet_time
    rw [hq]
    cases lastRun with
    | none => simp
    | some lr =>
      by_cases hlt : ((now : ℚ) - (lr : ℚ)) / 60 < (cfg.quietIntervalMinutes : ℚ)
      · simp [hlt]
      · simp [hlt]
  · intro hq
    unfold should_skip_quiet_time
    simp [hq]
  · intro hw
    unfold is_quiet_hour
    rw [if_pos hw]
    simp [ge_iff_le]

/-- C6 witness: window 22-06, interval 120, last run at 23:00 (second 82800),
tick at 23:30 (second 84600) — skipped. -/
theorem C6_quiet_hours_pure_decision_witness :
    should_skip_quiet_time exampleQuiet 84600 (some 82800) = true :=
  ((C6_quiet_hours_pure_decision exampleQuiet 84600 (some 82800)).1 rfl).mpr
    ⟨82800, rfl, by norm_num [exampleQuiet]⟩

/-- C7: the extractor never raises — when no candidate slice parses and the
whole cleaned text does not parse either, the result is exactly the
`raw_output` wrapper around the unmodified input, and the caller's
parse-and-persist step accepts it: the context store is untouched and this
degraded value is what reaches the execution-log step. -/
theorem C7_extract_never_raises (raw : List Char) (now : Nat) (ctx : Option Json)
    (h1 : braceScan (cleanText raw) = none)
    (h2 : json_parse (cleanText raw) = none) :
    extract raw = rawFallback raw ∧
    successStep raw now ctx = (rawFallback raw, ctx) := by
  have he : extract raw = rawFallback raw := by
    unfold extract
    rw [h1, h2]
  refine ⟨he, ?_⟩
  unfold successStep
  rw [he]
  rfl

/-- C7 witness at plain non-JSON text. -/
theorem C7_extract_never_raises_witness :
    extract (sl ("hello")) = rawFallback (sl ("hello")) ∧
    successStep (sl ("hello")) 0 none = (rawFallback (sl ("hello")), none) :=
  C7_extract_never_raises (sl ("hello")) 0 none rfl rfl

/-- C3: on input whose trimmed text carries no fence markers, the extractor
realizes the spec-worded scan — last closing brace fixed as end, every
opening-brace position tried left to right, first successful parse returned —
and on the example-scenario-2 input it yields the expected object. -/
theorem C3_result_extractor_scan :
    (∀ raw v,
      startsW (sl ("```json")) (pyStrip raw) = false →
      endsW (sl ("```")) (pyStrip raw) = false →
      specScan (pyStrip raw) = some v →
      extract raw = v) ∧
    extract ex3Text = ex3Result := by
  constructor
  · intro raw v h1 h2 hs
    unfold extract
    rw [cleanText_no_fence raw h1 h2, braceScan_eq_specScan, hs]
  · rfl

/-- C3 witness: the spec-worded scan applied to the example input, hypotheses
discharged by computation. -/
theorem C3_result_extractor_scan_witness :
    extract ex3Text = ex3Result :=
  (C3_result_extractor_scan).1 ex3Text ex3Result rfl rfl rfl

/-- C10: when the brace scan finds nothing but the whole cleaned text parses
as a non-object JSON value, that value is the extraction result (not the
`raw_output` fallback); it never triggers a context write, yet it is the
value handed to the execution-log step.  The concrete witness input is a
top-level array. -/
theorem C10_nonobject_extraction :
    (∀ raw v now ctx, isObjB v = false →
      braceScan (cleanText raw) = none →
      json_parse (cleanText raw) = some v →
      extract raw = v ∧ successStep raw now ctx = (v, ctx)) ∧
    extract (sl ("[1, 2]")) = Json.arr [Json.num 1, Json.num 2] := by
  constructor
  · intro raw v now ctx hv h1 h2
    have he : extract raw = v := by
      unfold extract
      rw [h1, h2]
    refine ⟨he, ?_⟩
    unfold successStep
    rw [he]
    unfold mainContextWrite
    simp [keyMem_eq_false_of_not_obj hv]
  · rfl

/-- C10 witness: a top-level array flows through extraction and the persist
step unchanged, without touching the context store. -/
theorem C10_nonobject_extraction_witness :
    extract (sl ("[1, 2]")) = Json.arr [Json.num 1, Json.num 2] ∧
    successStep (sl ("[1, 2]")) 0 none = (Json.arr [Json.num 1, Json.num 2], none) :=
  (C10_nonobject_extraction).1 (sl ("[1, 2]")) (Json.arr [Json.num 1, Json.num 2]) 0 none
    rfl rfl rfl

/-- C8: the Session Store round-trips — saving any non-empty id with any
timestamp and loading yields exactly that pair; clearing (and the
never-saved state) loads as the no-session answer. -/
theorem C8_session_store_roundtrip (sid : List Char) (t : Nat) (f1 f2 : Option Json)
    (h : sid ≠ []) :
    load_session_id (save_session_id sid t f1) = (some sid, some t) ∧
    load_session_id (clear_session_id f2) = (none, none) ∧
    load_session_id none = (none, none) := by
  refine ⟨?_, rfl, rfl⟩
  have htr : truthy (Json.str (isoformat t)) = true := by
    simp only [truthy, decide_eq_true_eq]
    exact natToDec_ne_nil t
  have step1 : load_session_id (save_session_id sid t f1) =
      (if truthy (Json.str (isoformat t)) = true then
        sidCheck [(sl ("session_id"), Json.str sid),
                  (sl ("start_time"), Json.str (isoformat t))]
          (fromisoformat (isoformat t))
      else
        sidCheck [(sl ("session_id"), Json.str sid),
                  (sl ("start_time"), Json.str (isoformat t))] none) := rfl
  rw [step1, if_pos htr, fromisoformat_isoformat]
  have step2 : sidCheck [(sl ("session_id"), Json.str sid),
      (sl ("start_time"), Json.str (isoformat t))] (some t) =
      (if sid = [] then (none, none) else (some sid, some t)) := rfl
  rw [step2, if_neg h]

/-- C8 witness: a concrete id and timestamp round-trip. -/
theorem C8_session_store_roundtrip_witness :
    load_session_id (save_session_id (sl ("abc")) 12345 none) =
      (some (sl ("abc")), some 12345) ∧
    load_session_id (clear_session_id (some (sessionDoc (sl ("abc")) 12345))) =
      (none, none) :=
  ⟨(C8_session_store_roundtrip (sl ("abc")) 12345 none
      (some (sessionDoc (sl ("abc")) 12345)) (by decide)).1,
   (C8_session_store_roundtrip (sl ("abc")) 12345 none
      (some (sessionDoc (sl ("abc")) 12345)) (by decide)).2.1⟩

/-- C9: the Context Store is overwritten exactly when the structured result
is an object carrying a `plant_status` key; the snapshot written has exactly
the five fields timestamp / plant_status / growth_stage / last_operation /
last_comment lifted off the result (never the raw response); any result
without the key — the `raw_output` fallback included — leaves the store
untouched. -/
theorem C9_context_snapshot_guard (structured : Json) (now : Nat) (ctx : Option Json)
    (raw : List Char) :
    (keyMem structured (sl ("plant_status")) = true →
      mainContextWrite structured now ctx = some (contextSnapshot structured now)) ∧
    (keyMem structured (sl ("plant_status")) = false →
      mainContextWrite structured now ctx = ctx) ∧
    objKeys (contextSnapshot structured now) =
      [sl ("timestamp"), sl ("plant_status"), sl ("growth_stage"),
       sl ("last_operation"), sl ("last_comment")] ∧
    mainContextWrite (rawFallback raw) now ctx = ctx := by
  refine ⟨?_, ?_, rfl, rfl⟩
  · intro hk
    unfold mainContextWrite
    rw [if_pos hk]
    cases structured <;> first | rfl | simp [keyMem] at hk
  · intro hk
    unfold mainContextWrite
    simp [hk]

/-- C9 witness: a result with `plant_status` is snapshotted; the raw fallback
leaves the (empty) store empty. -/
theorem C9_context_snapshot_guard_witness :
    mainContextWrite (Json.obj [(sl ("plant_status"), Json.str (sl ("good")))]) 5 none =
      some (contextSnapshot (Json.obj [(sl ("plant_status"), Json.str (sl ("good")))]) 5) ∧
    mainContextWrite (rawFallback (sl ("oops"))) 5 none = none :=
  ⟨(C9_context_snapshot_guard (Json.obj [(sl ("plant_status"), Json.str (sl ("good")))])
      5 none (sl ("oops"))).1 rfl,
   (C9_context_snapshot_guard (Json.obj [(sl ("plant_status"), Json.str (sl ("good")))])
      5 none (sl ("oops"))).2.2.2⟩

/-- C5 counterexample: the claim says `save` writes and fsyncs a temporary
file and renames it into place; the source's `save_session_id` and
`save_context` issue only a `makedirs` and one direct write of the final
path — no rename and no fsync anywhere in the trace. -/
theorem C5_counterexample :
    saveSessionOps (sl ("s1")) 0 =
      [FsOp.mkdirs (sl ("/app/data")),
       FsOp.writeFile SESSION_FILE_PATH (render (sessionDoc (sl ("s1")) 0))] ∧
    ((saveSessionOps (sl ("s1")) 0).all fun op => !op.isRename && !op.isFsync) = true ∧
    ((saveContextOps (Json.obj [(sl ("plant_status"), Json.str (sl ("good")))]) 0).all
      fun op => !op.isRename && !op.isFsync) = true :=
  ⟨rfl, rfl, rfl⟩

/-- C5 amended: both saves write the record directly to the store path with a
single non-atomic write (no temporary file, no fsync, no rename), so a hard
crash mid-write can leave a truncated, unparseable record at the store
path — witnessed by a 10-byte crash prefix of a concrete session record that
`json_parse` rejects. -/
theorem C5_amended_nonatomic_direct_write (sid : List Char) (t : Nat)
    (data : Json) (now : Nat) :
    saveSessionOps sid t =
      [FsOp.mkdirs (sl ("/app/data")),
       FsOp.writeFile SESSION_FILE_PATH (render (sessionDoc sid t))] ∧
    saveContextOps data now =
      [FsOp.mkdirs (sl ("/app/data")),
       FsOp.writeFile CONTEXT_FILE_PATH (render (contextSnapshot data now))] ∧
    ((saveSessionOps sid t).all fun op => !op.isRename && !op.isFsync) = true ∧
    json_parse (crashDuringWrite (render (sessionDoc (sl ("s1")) 0)) 10) = none ∧
    crashDuringWrite (render (sessionDoc (sl ("s1")) 0)) 10 ≠
      render (sessionDoc (sl ("s1")) 0) := by
  refine ⟨rfl, rfl, rfl, rfl, ?_⟩
  intro hcontra
  have hl := congrArg List.length hcontra
  exact absurd hl (by decide)

/-- Cycle state for the C1 scenario: an in-memory session with no recorded
start (no rotation due) and no successful run yet. -/
def c1state : OrchState := ⟨none, none, some (sl ("s1")), none, none⟩

/-- C1 scenario oracle: a tick at 23:00 (second 82800) whose `/run` returns
HTTP 200. -/
def c1oracle : Oracle := ⟨82800, [], [RunOutcome.resp 200 okBody], RunOutcome.exn⟩

/-- C1 is violated by the code: `run_job` assigns `LAST_RUN_TIME` without a
`global` declaration (line 383), so a successful 200 cycle leaves the
module-level timestamp that `should_skip_quiet_time` reads unset; with quiet
window 22:00-06:00 and interval 120 min, after a successful run at 23:00 the
tick at 23:30 (second 84600) is NOT skipped — whereas with the timestamp
recorded as the claim (and the spec) require it would be skipped. -/
theorem C1_lastRun_never_recorded :
    (run_job exampleCfg c1oracle c1state).logged.isSome = true ∧
    (run_job exampleCfg c1oracle c1state).st.lastRun = none ∧
    should_skip_quiet_time exampleQuiet 84600
      (run_job exampleCfg c1oracle c1state).st.lastRun = false ∧
    should_skip_quiet_time exampleQuiet 84600 (some 82800) = true := by
  refine ⟨rfl, rfl, rfl, ?_⟩
  unfold should_skip_quiet_time
  show (if (((84600 : Nat) : ℚ) - ((82800 : Nat) : ℚ)) / 60 <
      (exampleQuiet.quietIntervalMinutes : ℚ) then true else false) = true
  rw [if_pos (by norm_num [exampleQuiet])]

/-- Cycle state for the C2 scenarios: an in-memory session `s1` whose record
is on disk, no recorded start (no rotation due), outside quiet hours. -/
def c2state : OrchState :=
  ⟨some (sessionDoc (sl ("s1")) 1000), none, some (sl ("s1")), none, none⟩

/-- Oracle for the C2 counterexample: the single `/run` answers HTTP 502. -/
def c2oracle502 : Oracle := ⟨36000, [], [RunOutcome.resp 502 Json.null], RunOutcome.exn⟩

/-- C2 counterexample: the claim says HTTP 404 *or any 5xx* clears the
Session Store and retries once; on 502 the source takes the generic-failure
branch (`elif code == 404 or code == 500`): exactly one `/run` call, no
retry, and the session — in memory and on disk — is left in place. -/
theorem C2_counterexample :
    (run_job exampleCfg c2oracle502 c2state).runSids = [sl ("s1")] ∧
    (run_job exampleCfg c2oracle502 c2state).st.memSid = some (sl ("s1")) ∧
    (run_job exampleCfg c2oracle502 c2state).st.sessionFile =
      some (sessionDoc (sl ("s1")) 1000) ∧
    (run_job exampleCfg c2oracle502 c2state).logged = none :=
  ⟨rfl, rfl, rfl, rfl⟩

/-- C2 amended: only HTTP 404 or HTTP 500 (not every 5xx) act as
session-invalidation: the store is cleared and the cycle retried exactly once
on a fresh session, aborting after a second 404/500; a 404/500 followed by a
200 succeeds on the retry; every other non-200 status, and a transport
exception, aborts the cycle after a single call with the session intact. -/
theorem C2_amended_retry_only_404_500 (c1 c2 : Nat) (b1 b2 : Json)
    (h1 : c1 = 404 ∨ c1 = 500) (h2 : c2 = 404 ∨ c2 = 500) :
    ((run_job exampleCfg
        ⟨36000, [some (sl ("s2"))],
         [RunOutcome.resp c1 b1, RunOutcome.resp c2 b2], RunOutcome.exn⟩
        c2state).runSids = [sl ("s1"), sl ("s2")] ∧
     (run_job exampleCfg
        ⟨36000, [some (sl ("s2"))],
         [RunOutcome.resp c1 b1, RunOutcome.resp c2 b2], RunOutcome.exn⟩
        c2state).createdIds = [sl ("s2")] ∧
     (run_job exampleCfg
        ⟨36000, [some (sl ("s2"))],
         [RunOutcome.resp c1 b1, RunOutcome.resp c2 b2], RunOutcome.exn⟩
        c2state).st.memSid = none ∧
     (run_job exampleCfg
        ⟨36000, [some (sl ("s2"))],
         [RunOutcome.resp c1 b1, RunOutcome.resp c2 b2], RunOutcome.exn⟩
        c2state).st.sessionFile = none ∧
     (run_job exampleCfg
        ⟨36000, [some (sl ("s2"))],
         [RunOutcome.resp c1 b1, RunOutcome.resp c2 b2], RunOutcome.exn⟩
        c2state).logged = none) ∧
    ((run_job exampleCfg
        ⟨36000, [some (sl ("s2"))],
         [RunOutcome.resp c1 b1, RunOutcome.resp 200 okBody], RunOutcome.exn⟩
        c2state).runSids = [sl ("s1"), sl ("s2")] ∧
     (run_job exampleCfg
        ⟨36000, [some (sl ("s2"))],
         [RunOutcome.resp c1 b1, RunOutcome.resp 200 okBody], RunOutcome.exn⟩
        c2state).logged.isSome = true) ∧
    (∀ c3 b3, c3 ≠ 200 → c3 ≠ 404 → c3 ≠ 500 →
      (run_job exampleCfg ⟨36000, [], [RunOutcome.resp c3 b3], RunOutcome.exn⟩
        c2state).runSids = [sl ("s1")] ∧
      (run_job exampleCfg ⟨36000, [], [RunOutcome.resp c3 b3], RunOutcome.exn⟩
        c2state).st.memSid = some (sl ("s1")) ∧
      (run_job exampleCfg ⟨36000, [], [RunOutcome.resp c3 b3], RunOutcome.exn⟩
        c2state).st.sessionFile = some (sessionDoc (sl ("s1")) 1000)) ∧
    ((run_job exampleCfg ⟨36000, [], [RunOutcome.exn], RunOutcome.exn⟩
        c2state).runSids = [sl ("s1")] ∧
     (run_job exampleCfg ⟨36000, [], [RunOutcome.exn], RunOutcome.exn⟩
        c2state).st.memSid = some (sl ("s1"))) := by
  have hother : ∀ c3 b3, c3 ≠ 200 → c3 ≠ 404 → c3 ≠ 500 →
      run_job exampleCfg ⟨36000, [], [RunOutcome.resp c3 b3], RunOutcome.exn⟩ c2state =
        finishRes c2state [sl ("s1")] none [] none := by
    intro c3 b3 h200 h404 h500
    have hstep : run_job exampleCfg
        ⟨36000, [], [RunOutcome.resp c3 b3], RunOutcome.exn⟩ c2state =
        (if c3 = 200 then
          finishRes { c2state with contextFile :=
              (successStep (agentTextOf b3) 36000 c2state.contextFile).2 }
            [sl ("s1")] none []
            (some (successStep (agentTextOf b3) 36000 c2state.contextFile).1)
        else if c3 = 404 ∨ c3 = 500 then
          finishRes { c2state with memSid := none, memStart := none, sessionFile := none }
            [sl ("s1")] none [] none
        else finishRes c2state [sl ("s1")] none [] none) := rfl
    rw [hstep, if_neg h200, if_neg (by simp [h404, h500])]
  refine ⟨?_, ?_, ?_, ⟨rfl, rfl⟩⟩
  · rcases h1 with h1 | h1 <;> rcases h2 with h2 | h2 <;> subst h1 <;> subst h2 <;>
      exact ⟨rfl, rfl, rfl, rfl, rfl⟩
  · rcases h1 with h1 | h1 <;> subst h1 <;> exact ⟨rfl, rfl⟩
  · intro c3 b3 h200 h404 h500
    rw [hother c3 b3 h200 h404 h500]
    exact ⟨rfl, rfl, rfl⟩

/-- C2 amended witness: first call 404, retry 500 — two calls, cleared,
aborted; and 403 aborts immediately with the session intact. -/
theorem C2_amended_retry_only_404_500_witness :
    (run_job exampleCfg
      ⟨36000, [some (sl ("s2"))],
       [RunOutcome.resp 404 Json.null, RunOutcome.resp 500 Json.null], RunOutcome.exn⟩
      c2state).runSids = [sl ("s1"), sl ("s2")] ∧
    (run_job exampleCfg ⟨36000, [], [RunOutcome.resp 403 Json.null], RunOutcome.exn⟩
      c2state).st.memSid = some (sl ("s1")) :=
  ⟨(C2_amended_retry_only_404_500 404 500 Json.null Json.null
      (Or.inl rfl) (Or.inr rfl)).1.1,
   ((C2_amended_retry_only_404_500 404 500 Json.null Json.null
      (Or.inl rfl) (Or.inr rfl)).2.2.1 403 Json.null
      (by decide) (by decide) (by decide)).2.1⟩

/-- Oracle for the C4 scenarios: a cycle at `T0 + 3 days + 1 s` (seconds
259201, session created at 0), one successful create of `s-new`, a 200 main
run whose text parses to nothing structured, and an arbitrary handover
outcome. -/
def c4oracle (hov : RunOutcome) : Oracle :=
  ⟨259201, [some (sl ("s-new"))], [RunOutcome.resp 200 plainBody], hov⟩

/-- Cycle state for the C4 scenarios: session `s-old` created at time 0, an
arbitrary prior context snapshot. -/
def c4state (cf : Option Json) : OrchState :=
  ⟨none, cf, some (sl ("s-old")), some 0, none⟩

/-- C4 counterexample: on a handover response whose text is a prose preamble
followed by the JSON payload, the §4.4 Result Extractor recovers the object
(`plant_status = "good"`), but the handover's own simplified parse (a single
direct `json.loads` after fence-stripping, no brace scan) fails and stores
the degraded `plant_status = "Handover (Raw)"` snapshot instead — so the
claim that the handover result is extracted via §4.4 and persisted is false
on this input. -/
theorem C4_counterexample :
    doHandover (RunOutcome.resp 200 hbody) 259201 none =
      some (contextSnapshot
        (Json.obj [(sl ("plant_status"), Json.str (sl ("Handover (Raw)"))),
                   (sl ("comment"), Json.str hoText)]) 259201) ∧
    extract hoText =
      Json.obj [(sl ("plant_status"), Json.str (sl ("good"))),
                (sl ("comment"), Json.str (sl ("ok")))] ∧
    objGet (contextSnapshot
        (Json.obj [(sl ("plant_status"), Json.str (sl ("Handover (Raw)"))),
                   (sl ("comment"), Json.str hoText)]) 259201)
      (sl ("plant_status")) = some (Json.str (sl ("Handover (Raw)"))) ∧
    objGet (contextSnapshot (extract hoText) 259201) (sl ("plant_status")) =
      some (Json.str (sl ("good"))) ∧
    sl ("Handover (Raw)") ≠ sl ("good") :=
  ⟨rfl, rfl, rfl, rfl, by decide⟩

/-- C4 amended: when the loaded session's age reaches the lifetime, the cycle
rotates regardless of the handover outcome — the handover prompt goes to the
old session, the Session Store is cleared and a fresh session is created and
saved before the main prompt (which runs on the new id), and the cycle still
completes; the Context Store afterwards is exactly what the handover's
simplified parse produced (for a transport exception: unchanged), not a §4.4
extraction. -/
theorem C4_amended_rotation_simplified_parse (hov : RunOutcome) (cf : Option Json) :
    (run_job exampleCfg (c4oracle hov) (c4state cf)).handoverSid = some (sl ("s-old")) ∧
    (run_job exampleCfg (c4oracle hov) (c4state cf)).createdIds = [sl ("s-new")] ∧
    (run_job exampleCfg (c4oracle hov) (c4state cf)).runSids = [sl ("s-new")] ∧
    (run_job exampleCfg (c4oracle hov) (c4state cf)).st.memSid = some (sl ("s-new")) ∧
    (run_job exampleCfg (c4oracle hov) (c4state cf)).st.sessionFile =
      some (sessionDoc (sl ("s-new")) 259201) ∧
    (run_job exampleCfg (c4oracle hov) (c4state cf)).st.contextFile =
      doHandover hov 259201 cf ∧
    (run_job exampleCfg (c4oracle hov) (c4state cf)).logged.isSome = true ∧
    doHandover RunOutcome.exn 259201 cf = cf :=
  ⟨rfl, rfl, rfl, rfl, rfl, rfl, rfl, rfl⟩

end EdgeAgent
